import Mathlib

/-!
Verification of the market-scanner analytics core.

This file gives a shallow embedding, over the rational numbers, of the pure
numeric transformations of the repository:

  - the rounding helper used throughout (Python round, banker rounding);
  - the percentile-rank normalizer of multifactor_model.py;
  - the composite scorer MultifactorScanner.calcular of multifactor_model.py,
    including the fundamentals row construction of _descargar_fundamentals;
  - the per-asset and portfolio statistics of portfolio_model.py
    (metricas_individuales, analizar_portafolio);
  - the cross-sectional rankers _top_losers and _top_gainers of
    market_scanner_model.py;
  - the fundamentals aggregation _agregar_por_periodo and the cached
    FundamentalsScanner state of dividend_scanner_model.py;
  - the P/E ranking PERScanner.escanear of per_scanner_model.py.

Numbers are embedded as rationals.  Floating point artifacts are not modelled
except where a claim depends on them: division of a nonzero float by zero
yields an infinity and zero by zero yields NaN; those outcomes are represented
explicitly by the SharpeVal type below.  Quantities of the form x / sqrt y
(annualized volatility is a square root, hence irrational) are represented
exactly by the pair (x, y) rather than by a rational approximation.

Data frames are embedded as lists of rows; a nullable column entry is an
Option.  The row order of a frame is the frame order; pandas sorts are
embedded with List.insertionSort (pandas uses an unstable quicksort by
default, so no tie order is part of the source semantics and none of the
claims depends on one).
-/

/-! ## Rounding (Python round: half to even) -/

/-- Round a rational to the nearest integer, ties to even, as the Python
builtin round does on exact values. -/
def roundHalfEven (q : ℚ) : ℤ :=
  let f := ⌊q⌋
  let r := q - f
  if r < 1/2 then f
  else if 1/2 < r then f + 1
  else if f % 2 = 0 then f else f + 1

/-- Python round(q, k): round at k decimal digits, ties to even. -/
def roundDec (k : ℕ) (q : ℚ) : ℚ :=
  (roundHalfEven (q * 10 ^ k) : ℚ) / 10 ^ k

/-- Python round(q, 2). -/
def round2 : ℚ → ℚ := roundDec 2

/-- Python round(q, 1). -/
def round1 : ℚ → ℚ := roundDec 1

theorem roundHalfEven_intCast (z : ℤ) : roundHalfEven (z : ℚ) = z := by
  unfold roundHalfEven
  simp [Int.floor_intCast]

theorem roundDec_intCast (k : ℕ) (z : ℤ) : roundDec k (z : ℚ) = z := by
  unfold roundDec
  have h1 : (z : ℚ) * 10 ^ k = ((z * 10 ^ k : ℤ) : ℚ) := by push_cast; ring
  rw [h1, roundHalfEven_intCast]
  push_cast
  have h10 : ((10 : ℚ) ^ k) ≠ 0 := by positivity
  field_simp

theorem round2_intCast (z : ℤ) : round2 (z : ℚ) = z := roundDec_intCast 2 z

theorem round2_zero : round2 0 = 0 := by
  have := round2_intCast 0
  simpa using this

theorem round2_hundred : round2 100 = 100 := by
  have := round2_intCast 100
  simpa using this

/-! ## Percentile rank (multifactor_model._percentile_rank)

Source (multifactor_model.py, lines 202-211):
  ranked = series.rank(method="average", ascending=ascending, na_option="keep")
  n      = series.notna().sum()
  pct    = (ranked - 1) / (n - 1) * 100 if n > 1 else ranked * 0
  return pct.round(2)

A series is a list of nullable rationals.  The pandas average rank of a
non-null value x is (number of strictly better-ranked values) plus
(ties + 1) / 2, where better means smaller when ascending and larger when
descending; null entries keep a null rank (na_option keep), and null ranks
stay null through the arithmetic, including through the ranked * 0 branch
(NaN times zero is NaN). -/

/-- The non-null values of a series, in order. -/
def validList (s : List (Option ℚ)) : List ℚ := s.filterMap id

/-- pandas rank(method="average") of value x within series s. -/
def avgRank (s : List (Option ℚ)) (ascending : Bool) (x : ℚ) : ℚ :=
  let xs := validList s
  let better := (xs.filter (fun u => if ascending then decide (u < x) else decide (x < u))).length
  let ties := (xs.filter (fun u => decide (u = x))).length
  (better : ℚ) + ((ties : ℚ) + 1) / 2

/-- Embedding of _percentile_rank. -/
def percentileRank (s : List (Option ℚ)) (ascending : Bool) : List (Option ℚ) :=
  s.map (fun v => v.map (fun x =>
    if 1 < (validList s).length then
      round2 ((avgRank s ascending x - 1) / (((validList s).length : ℚ) - 1) * 100)
    else 0))

/-! ## Composite scorer (multifactor_model.py)

The data-provider boundary is the info snapshot per ticker.  The row
construction of _descargar_fundamentals (lines 151-187) is embedded by
mkFundRow; note line 177: a missing dividend yield is recorded as the plain
value 0.0 in the DY_pct column, while missing PER, ROA, ROE and margin stay
null.  Momentum rows are only appended when both the 6 month and the 12 month
figures exist (lines 128-134), so a MomRow has no nullable field. -/

/-- Fields of the provider info snapshot used by _descargar_fundamentals. -/
structure FundInfo where
  trailingPE : Option ℚ
  returnOnAssets : Option ℚ
  returnOnEquity : Option ℚ
  profitMargins : Option ℚ
  dividendYield : Option ℚ

/-- One row of the fundamentals frame produced by _descargar_fundamentals. -/
structure FundRow where
  ticker : String
  per : Option ℚ
  roaPct : Option ℚ
  roePct : Option ℚ
  margenPct : Option ℚ
  dyPct : ℚ
deriving DecidableEq

/-- Row construction of _descargar_fundamentals: PER is discarded when
nonpositive or above 1000; ROA, ROE and margin are scaled to percent when
present and stay null otherwise; a missing dividend yield becomes the real
value 0.0 (source lines 176-177). -/
def mkFundRow (sym : String) (info : FundInfo) : FundRow :=
  { ticker := sym
    per := info.trailingPE.bind (fun p => if p ≤ 0 ∨ 1000 < p then none else some p)
    roaPct := info.returnOnAssets.map (fun r => round2 (r * 100))
    roePct := info.returnOnEquity.map (fun r => round2 (r * 100))
    margenPct := info.profitMargins.map (fun m => round2 (m * 100))
    dyPct := match info.dividendYield with
             | some d => round2 (d * 100)
             | none => 0 }

/-- One row of the momentum frame produced by _descargar_momentum. -/
structure MomRow where
  ticker : String
  mom6 : ℚ
  mom12 : ℚ
  momAvg : ℚ
deriving DecidableEq

/-- pd.merge(df_mom, df_fund, on="Ticker", how="inner").  Tickers are unique
within each downloaded frame (one row per symbol), for which this
first-match embedding coincides with the pandas inner join. -/
def mergeInner (dfMom : List MomRow) (dfFund : List FundRow) : List (MomRow × FundRow) :=
  dfMom.filterMap (fun m => (dfFund.find? (fun f => f.ticker == m.ticker)).map (fun f => (m, f)))

/-- Column score_momentum (line 273): percentile rank of mom_avg, no fillna. -/
def scoreMomentumCol (mg : List (MomRow × FundRow)) : List (Option ℚ) :=
  percentileRank (mg.map (fun p => some p.1.momAvg)) true

/-- Column score_valoracion (lines 276-278): percentile rank of PER with
ascending False (lower PER is better), then fillna(50). -/
def scoreValoracionCol (mg : List (MomRow × FundRow)) : List ℚ :=
  (percentileRank (mg.map (fun p => p.2.per)) false).map (fun o => o.getD 50)

/-- Column score_calidad (lines 281-285): per sub-metric percentile rank with
fillna(50), then row-wise mean of the three, rounded to 2 decimals. -/
def scoreCalidadCol (mg : List (MomRow × FundRow)) : List ℚ :=
  List.zipWith3 (fun a b c => round2 ((a + b + c) / 3))
    ((percentileRank (mg.map (fun p => p.2.roaPct)) true).map (fun o => o.getD 50))
    ((percentileRank (mg.map (fun p => p.2.roePct)) true).map (fun o => o.getD 50))
    ((percentileRank (mg.map (fun p => p.2.margenPct)) true).map (fun o => o.getD 50))

/-- Column score_dividendos (line 288): percentile rank of DY_pct, then
fillna(0).  The DY_pct column never contains a null (see mkFundRow), so the
fillna(0) never fires; getD 0 embeds it nevertheless. -/
def scoreDividendosCol (mg : List (MomRow × FundRow)) : List ℚ :=
  (percentileRank (mg.map (fun p => some p.2.dyPct)) true).map (fun o => o.getD 0)

/-- One row of the final scored frame (raw passthrough columns such as
mom_6m and PER are carried by the merged pair already and are not part of
any claim, so only ticker and the score columns are kept here). -/
structure ScoredRow where
  ticker : String
  scoreMomentum : Option ℚ
  scoreValoracion : ℚ
  scoreCalidad : ℚ
  scoreDividendos : ℚ
  smartScore : Option ℚ
deriving DecidableEq

/-- Lines 291-296: smart_score = 0.40 mom + 0.20 val + 0.30 cal + 0.10 div,
rounded to 1 decimal.  A null momentum score would propagate (NaN
arithmetic), hence the Option.map. -/
def scoredRows (mg : List (MomRow × FundRow)) : List ScoredRow :=
  ((mg.zip (scoreMomentumCol mg)).zip
      ((scoreValoracionCol mg).zip ((scoreCalidadCol mg).zip (scoreDividendosCol mg)))).map
    (fun x =>
      { ticker := x.1.1.1.ticker
        scoreMomentum := x.1.2
        scoreValoracion := x.2.1
        scoreCalidad := x.2.2.1
        scoreDividendos := x.2.2.2
        smartScore := x.1.2.map (fun m =>
          round1 (m * (40/100) + x.2.1 * (20/100) + x.2.2.1 * (30/100) + x.2.2.2 * (10/100))) })

/-- Descending order on smart_score, null last (pandas sort_values with
ascending False keeps NaN at the end). -/
def smartDescB (a b : ScoredRow) : Bool :=
  match a.smartScore, b.smartScore with
  | some x, some y => decide (y ≤ x)
  | some _, none => true
  | none, some _ => false
  | none, none => true

/-- TOP_N of multifactor_model.py. -/
def topNMF : ℕ := 20

/-- Embedding of MultifactorScanner.calcular, lines 262-313, from the two
downloaded frames onward (the downloads themselves are the provider
boundary).  The function body raises nothing, so every branch returns ok;
the Except form records that an exception would be the only other outcome a
Python caller could observe. -/
def calcular (dfMom : List MomRow) (dfFund : List FundRow) :
    Except String (List ScoredRow) :=
  if dfMom.isEmpty || dfFund.isEmpty then .ok []
  else
    let mg := mergeInner dfMom dfFund
    if mg.isEmpty then .ok []
    else .ok ((List.insertionSort (fun a b => smartDescB a b = true) (scoredRows mg)).take topNMF)

/-! ## Portfolio statistics (portfolio_model.py)

A return frame is a list of columns (ticker, daily return series); all
columns have the same number of rows after the complete-case dropna of
_descargar.  pandas mean, std and cov use ddof 1; for a series of fewer than
two rows pandas yields NaN where this embedding yields 0, so statements
about variance are made for series of at least two rows.

The annualized volatility is sqrt(annualized variance), an irrational
number; it is represented here by the variance (vol2 below), and a Sharpe
quotient x / sqrt v is represented by the SharpeVal constructor finite x v.
The display rounding that metricas_individuales and analizar_portafolio
apply to these two irrational quantities is presentational and is not part
of any claim, so it is not modelled; retorno_anual and max_drawdown, which
are rational, keep their round(_, 2). -/

/-- pandas Series.mean (the empty case, NaN in pandas, does not arise in any
statement below). -/
def listMean (l : List ℚ) : ℚ := l.sum / l.length

/-- pandas Series.var with ddof 1. -/
def sampleVar (l : List ℚ) : ℚ :=
  if 2 ≤ l.length then ((l.map (fun x => (x - listMean l) ^ 2)).sum) / ((l.length : ℚ) - 1)
  else 0

/-- pandas Series.cov with ddof 1 (columns have equal length). -/
def sampleCov (x y : List ℚ) : ℚ :=
  if 2 ≤ x.length then
    (((x.zip y).map (fun p => (p.1 - listMean x) * (p.2 - listMean y))).sum) / ((x.length : ℚ) - 1)
  else 0

/-- The value of a float Sharpe computation.  finite num vol2 denotes the
real number num / sqrt vol2 with vol2 positive; a plain reported rational q
is finite q 1.  posInf, negInf and nan are the float outcomes of dividing a
positive, negative or zero numerator by zero. -/
inductive SharpeVal where
  | finite (num : ℚ) (vol2 : ℚ)
  | posInf
  | negInf
  | nan
deriving DecidableEq

/-- retorno_anual of metricas_individuales (line 80): mean times 252. -/
def annualRet (rets : List ℚ) : ℚ := listMean rets * 252

/-- Squared annualized volatility of one asset (line 81 squared). -/
def annualVol2 (rets : List ℚ) : ℚ := sampleVar rets * 252

/-- Sharpe of metricas_individuales (line 82): plain division with no
zero-volatility guard.  With volatility zero the float quotient is an
infinity or NaN according to the sign of the numerator. -/
def sharpeIndividual (rets : List ℚ) : SharpeVal :=
  if 0 < annualVol2 rets then .finite (annualRet rets) (annualVol2 rets)
  else if 0 < annualRet rets then .posInf
  else if annualRet rets < 0 then .negInf
  else .nan

/-- The dict returned by analizar_portafolio.  vol2 is the squared
annualized volatility w Sigma w; fechas is the index of evolucion and has no
separate content here. -/
structure PortMetrics where
  retornoAnual : ℚ
  vol2 : ℚ
  sharpe : SharpeVal
  evolucion : List ℚ
  maxDrawdown : ℚ
deriving DecidableEq

/-- Dot product of two equally long lists. -/
def dotList (v w : List ℚ) : ℚ := ((v.zip w).map (fun p => p.1 * p.2)).sum

/-- Line 104: tickers of the weight dict that are present in the return
frame, in weight-dict order. -/
def pesosValidos (pesos : List (String × ℚ)) (retornos : List (String × List ℚ)) :
    List (String × ℚ) :=
  pesos.filter (fun p => retornos.any (fun c => c.1 == p.1))

/-- Lines 110-134 of analizar_portafolio, after the weights have been
renormalized: cols are the selected return columns, w the normalized
weights. -/
def portStats (cols : List (List ℚ)) (w : List ℚ) : PortMetrics :=
  let retornoPort := dotList (cols.map listMean) w * 252
  let wc := cols.zip w
  let vol2 := 252 * (wc.map (fun p => (wc.map (fun q => p.2 * q.2 * sampleCov p.1 q.1)).sum)).sum
  let nDias := (cols.headD []).length
  let retPort := (List.range nDias).map (fun d => (wc.map (fun p => p.1.getD d 0 * p.2)).sum)
  let evol := (((retPort.map (fun r => 1 + r)).scanl (fun a x => a * x) 1).tail).map (fun v => v * 100)
  let cmax := match evol with
              | [] => []
              | x :: xs => xs.scanl (fun a v => max a v) x
  let drawdown := (evol.zip cmax).map (fun p => (p.1 - p.2) / p.2)
  { retornoAnual := round2 (retornoPort * 100)
    vol2 := vol2
    sharpe := if 0 < vol2 then .finite retornoPort vol2 else .finite 0 1
    evolucion := evol
    maxDrawdown := round2 ((drawdown.foldl min (drawdown.headD 0)) * 100) }

/-- Embedding of analizar_portafolio (lines 92-134).  The guard on line 116
reports Sharpe 0 when the volatility is not positive; finite 0 1 denotes
that reported 0. -/
def analizarPortafolio (pesos : List (String × ℚ)) (retornos : List (String × List ℚ)) :
    PortMetrics :=
  let validos := pesosValidos pesos retornos
  let wRaw := validos.map (fun p => p.2)
  portStats
    (validos.map (fun p => (((retornos.find? (fun c => c.1 == p.1)).map (fun c => c.2)).getD [])))
    (wRaw.map (fun x => x / wRaw.sum))

/-! ## Cross-sectional ranker (market_scanner_model.py)

A variation series is a list of (ticker, percentage change) pairs; null
entries were already removed by the dropna of _calcular_variacion, so the
series carries plain rationals. -/

/-- Embedding of _top_losers (lines 140-149): ascending sort, head(n), round
the variation column to 2 decimals. -/
def topLosers (variacion : List (String × ℚ)) (n : ℕ) : List (String × ℚ) :=
  if variacion.isEmpty then []
  else ((List.insertionSort (fun a b => a.2 ≤ b.2) variacion).take n).map
    (fun p => (p.1, round2 p.2))

/-- Embedding of _top_gainers (lines 152-161): descending sort, head(n),
round the variation column to 2 decimals. -/
def topGainers (variacion : List (String × ℚ)) (n : ℕ) : List (String × ℚ) :=
  if variacion.isEmpty then []
  else ((List.insertionSort (fun a b => b.2 ≤ a.2) variacion).take n).map
    (fun p => (p.1, round2 p.2))

/-! ## Fundamentals aggregation (dividend_scanner_model.py, second module)

A raw observation row is one (ticker, quarter index, metric value) record of
the frame built by _obtener_fundamentals_bulk, restricted to one metric
column.  _agregar_por_periodo filters quarter index below the window size,
groups by ticker, takes the NaN-ignoring mean, and drops tickers whose mean
is NaN (zero usable observations).  pandas groupby sorts the group keys; no
claim observes the key order, so the embedding keeps first-occurrence
order of the tickers instead of the lexicographic one. -/

/-- One row of the raw fundamentals frame, for one metric. -/
structure ObsRow where
  ticker : String
  trimestreIdx : ℕ
  valor : Option ℚ
deriving DecidableEq

/-- The usable observations of asset t in the window: non-null values at
quarter index below nTrimestres, in frame order. -/
def windowVals (dfRaw : List ObsRow) (nTrimestres : ℕ) (t : String) : List ℚ :=
  dfRaw.filterMap (fun r => if r.ticker = t ∧ r.trimestreIdx < nTrimestres then r.valor else none)

/-- The aggregated value of asset t: mean of the usable window observations,
none when there is no usable observation. -/
def aggValue (dfRaw : List ObsRow) (nTrimestres : ℕ) (t : String) : Option ℚ :=
  if (windowVals dfRaw nTrimestres t).isEmpty then none
  else some ((windowVals dfRaw nTrimestres t).sum / ((windowVals dfRaw nTrimestres t).length : ℚ))

/-- Embedding of _agregar_por_periodo (lines 423-440). -/
def agregarPorPeriodo (dfRaw : List ObsRow) (nTrimestres : ℕ) : List (String × ℚ) :=
  ((dfRaw.map (fun r => r.ticker)).dedup).filterMap
    (fun t => (aggValue dfRaw nTrimestres t).map (fun v => (t, v)))

/-! ## FundamentalsScanner state (dividend_scanner_model.py, lines 469-530)

The scanner object carries one piece of mutable state, _df_raw, set to None
by the constructor.  _asegurar_datos is modelled as a state transformer: its
first argument is the current _df_raw, its second the frame the provider
would deliver if the download ran now, and the result is the new _df_raw. -/

/-- Embedding of FundamentalsScanner._asegurar_datos (lines 481-484):
download only when the cache is None or empty, keep the cache otherwise. -/
def asegurarDatos (dfRawState : Option (List ObsRow)) (descarga : List ObsRow) :
    Option (List ObsRow) :=
  match dfRawState with
  | none => some descarga
  | some d => if d.isEmpty then some descarga else some d

/-- The period table PERIODOS_FUND as window sizes: 3, 6, 9, 12 months are 1,
2, 3, 4 quarters. -/
def periodosFund : List ℕ := [1, 2, 3, 4]

/-- The per-period aggregated series that _escanear_metrica derives from the
raw frame, for one generic metric (its PER positivity filter and the
top/bottom ranking construction are presentational stages downstream of the
aggregation and are not observed by any claim). -/
def escanearMetrica (dfRaw : List ObsRow) : List (ℕ × List (String × ℚ)) :=
  periodosFund.map (fun n => (n, agregarPorPeriodo dfRaw n))

/-- One public scan call (escanear_per and its siblings): ensure the data,
then compute from the now-cached frame.  Returns the new state and the
output. -/
def escanearScan (dfRawState : Option (List ObsRow)) (descarga : List ObsRow) :
    (Option (List ObsRow)) × List (ℕ × List (String × ℚ)) :=
  let st := asegurarDatos dfRawState descarga
  (st, escanearMetrica (st.getD []))

/-! ## PER scanner (per_scanner_model.py) -/

/-- The two P/E columns. -/
inductive PECol where
  | trailing
  | forward
deriving DecidableEq

/-- The other P/E column. -/
def otherPECol : PECol → PECol
  | .trailing => .forward
  | .forward => .trailing

/-- One row of the frame built by _obtener_per_bulk.  The bulk download only
keeps rows with at least one positive P/E (line 85), but no statement below
needs that invariant. -/
structure PerRow where
  ticker : String
  nombre : String
  sector : String
  precio : Option ℚ
  trailingPE : Option ℚ
  forwardPE : Option ℚ
deriving DecidableEq

/-- Column selection. -/
def getPECol (r : PerRow) : PECol → Option ℚ
  | .trailing => r.trailingPE
  | .forward => r.forwardPE

/-- Lines 158-161: the requested sort column; every tipo_pe other than
forward (trailing and ambos included) selects Trailing P/E. -/
def reqPECol (tipoPe : String) : PECol :=
  if tipoPe = "forward" then .forward else .trailing

/-- The dict returned by PERScanner.escanear. -/
structure PERResultado where
  bajo : List PerRow
  alto : List PerRow
  todos : List PerRow
  colPe : PECol
deriving DecidableEq

/-- TOP_N of per_scanner_model.py. -/
def topNPER : ℕ := 10

/-- Embedding of PERScanner.escanear (lines 142-179) from the downloaded
frame onward: keep the rows with a value in the requested column; when none
has one, switch to the other column and refilter (lines 167-170); sort
ascending for bajo and todos, descending for alto; truncate the two
rankings to TOP_N; report in col_pe the column actually used. -/
def escanearPER (df : List PerRow) (tipoPe : String) : PERResultado :=
  if df.isEmpty then ⟨[], [], [], .trailing⟩
  else
    let col0 := reqPECol tipoPe
    let v0 := df.filter (fun r => (getPECol r col0).isSome)
    let col := if v0.isEmpty then otherPECol col0 else col0
    let validos := if v0.isEmpty then df.filter (fun r => (getPECol r (otherPECol col0)).isSome) else v0
    let asc := List.insertionSort (fun a b => (getPECol a col).getD 0 ≤ (getPECol b col).getD 0) validos
    let desc := List.insertionSort (fun a b => (getPECol b col).getD 0 ≤ (getPECol a col).getD 0) validos
    ⟨asc.take topNPER, desc.take topNPER, asc, col⟩

/-! ## Shared list and percentile lemmas -/

theorem length_filter_add_length_filter_not {α : Type} (p : α → Bool) (l : List α) :
    (l.filter p).length + (l.filter (fun a => !(p a))).length = l.length := by
  induction l with
  | nil => simp
  | cons a l ih =>
    by_cases h : p a = true <;> simp [List.filter_cons, h] <;> omega

theorem percentileRank_getElem? (s : List (Option ℚ)) (asc : Bool) (i : ℕ) (v : Option ℚ)
    (h : s[i]? = some v) :
    (percentileRank s asc)[i]? = some (v.map (fun x =>
      if 1 < (validList s).length then
        round2 ((avgRank s asc x - 1) / (((validList s).length : ℚ) - 1) * 100)
      else 0)) := by
  unfold percentileRank
  rw [List.getElem?_map, h]
  rfl

/-- Ascending percentile rank: an entry that holds the strict minimum of at
least two non-null values (one tie, every value at least it) scores 0. -/
theorem percentileRank_unique_min (s : List (Option ℚ)) (i : ℕ) (x : ℚ)
    (hx : s[i]? = some (some x))
    (hn : 2 ≤ (validList s).length)
    (hties : ((validList s).filter (fun u => decide (u = x))).length = 1)
    (hmin : ∀ u ∈ validList s, x ≤ u) :
    (percentileRank s true)[i]? = some (some 0) := by
  rw [percentileRank_getElem? s true i _ hx]
  have hb : (validList s).filter (fun u => decide (u < x)) = [] := by
    rw [List.filter_eq_nil_iff]
    intro u hu
    simp only [decide_eq_true_eq]
    exact not_lt.mpr (hmin u hu)
  have har : avgRank s true x = 1 := by
    simp only [avgRank, if_true]
    rw [hb, hties]
    norm_num
  simp only [Option.map_some']
  rw [if_pos (show 1 < (validList s).length by omega), har]
  norm_num [round2_zero]

/-- Ascending percentile rank: an entry that holds the strict maximum of at
least two non-null values scores 100. -/
theorem percentileRank_unique_max (s : List (Option ℚ)) (i : ℕ) (x : ℚ)
    (hx : s[i]? = some (some x))
    (hn : 2 ≤ (validList s).length)
    (hties : ((validList s).filter (fun u => decide (u = x))).length = 1)
    (hmax : ∀ u ∈ validList s, u ≤ x) :
    (percentileRank s true)[i]? = some (some 100) := by
  rw [percentileRank_getElem? s true i _ hx]
  have hb : (validList s).filter (fun u => decide (u < x)) =
      (validList s).filter (fun u => !(decide (u = x))) := by
    apply List.filter_congr
    intro u hu
    by_cases h : u = x
    · simp [h]
    · simp [h, lt_of_le_of_ne (hmax u hu) h]
  have hsum := length_filter_add_length_filter_not (fun u => decide (u = x)) (validList s)
  have hlen : ((validList s).filter (fun u => decide (u < x))).length =
      (validList s).length - 1 := by
    rw [hb]; omega
  have har : avgRank s true x = ((validList s).length : ℚ) := by
    simp only [avgRank, if_true]
    rw [hlen, hties]
    have h1 : (1:ℕ) ≤ (validList s).length := by omega
    push_cast [Nat.cast_sub h1]
    ring
  simp only [Option.map_some']
  rw [if_pos (show 1 < (validList s).length by omega), har]
  have hne : ((validList s).length : ℚ) - 1 ≠ 0 := by
    have h2 : (2:ℚ) ≤ ((validList s).length : ℚ) := by exact_mod_cast hn
    linarith
  have hdiv : (((validList s).length : ℚ) - 1) / (((validList s).length : ℚ) - 1) * 100 = 100 := by
    rw [div_self hne]; ring
  rw [hdiv, round2_hundred]

/-- With fewer than two non-null values, every valid entry scores 0 (the
ranked times zero branch of the source). -/
theorem percentileRank_few_valid (s : List (Option ℚ)) (asc : Bool) (i : ℕ) (x : ℚ)
    (hx : s[i]? = some (some x))
    (hn : (validList s).length < 2) :
    (percentileRank s asc)[i]? = some (some 0) := by
  rw [percentileRank_getElem? s asc i _ hx]
  simp only [Option.map_some']
  rw [if_neg (by omega)]

/-- Null entries stay null (na_option keep, and NaN survives both branches
of the source arithmetic). -/
theorem percentileRank_keeps_null (s : List (Option ℚ)) (asc : Bool) (i : ℕ)
    (h : s[i]? = some none) :
    (percentileRank s asc)[i]? = some none := by
  rw [percentileRank_getElem? s asc i none h]
  rfl

/-! ## Claim C4 -/

/-- C4 (amended): with ascending-is-better direction, an entry that is the
unique holder of the minimum (respectively maximum) of at least two non-null
values scores 0 (respectively 100); with fewer than two non-null values
every valid entry scores 0; null entries remain null.  The uniqueness
qualification is forced: entries that tie for the extreme receive the
averaged-rank score instead (see the counterexample). -/
theorem c4_thm (s : List (Option ℚ)) (i : ℕ) (x : ℚ) :
    (s[i]? = some (some x) → 2 ≤ (validList s).length →
      ((validList s).filter (fun u => decide (u = x))).length = 1 →
      (∀ u ∈ validList s, x ≤ u) →
      (percentileRank s true)[i]? = some (some 0))
    ∧ (s[i]? = some (some x) → 2 ≤ (validList s).length →
      ((validList s).filter (fun u => decide (u = x))).length = 1 →
      (∀ u ∈ validList s, u ≤ x) →
      (percentileRank s true)[i]? = some (some 100))
    ∧ (s[i]? = some (some x) → (validList s).length < 2 →
      (percentileRank s true)[i]? = some (some 0))
    ∧ (s[i]? = some none → (percentileRank s true)[i]? = some none) :=
  ⟨fun hx hn ht hm => percentileRank_unique_min s i x hx hn ht hm,
   fun hx hn ht hm => percentileRank_unique_max s i x hx hn ht hm,
   fun hx hn => percentileRank_few_valid s true i x hx hn,
   fun hx => percentileRank_keeps_null s true i hx⟩

/-- C4 counterexample: the series with non-null values 5, 5 has at least two
non-null values and its first entry holds the minimum (and maximum) non-null
value, yet it scores 50, not 0 (and not 100): entries tied at an extreme do
not receive the extreme score. -/
theorem c4_counterexample :
    validList [some (5:ℚ), some 5] = [5, 5]
    ∧ (percentileRank [some (5:ℚ), some 5] true)[0]? = some (some 50)
    ∧ ((50:ℚ) ≠ 0) ∧ ((50:ℚ) ≠ 100) := by
  refine ⟨by decide, ?_, by norm_num, by norm_num⟩
  have hv : validList [some (5:ℚ), some 5] = [5, 5] := by decide
  have hall : percentileRank [some (5:ℚ), some 5] true = [some 50, some 50] := by
    simp only [percentileRank, avgRank, hv, List.map, Option.map_some', if_true]
    have he : ([5, 5] : List ℚ).filter (fun u => decide (u = 5)) = [5, 5] := by decide
    have hb : ([5, 5] : List ℚ).filter (fun u => decide (u < 5)) = [] := by decide
    simp only [he, hb]
    norm_num [round2, roundDec, roundHalfEven, Int.fract]
  rw [hall]
  rfl

/-- C4 witness: a strict minimum scores 0, a strict maximum 100, a single
valid entry scores 0, a null entry stays null. -/
theorem c4_witness :
    (percentileRank [some (1:ℚ), some 2] true)[0]? = some (some 0)
    ∧ (percentileRank [some (1:ℚ), some 2] true)[1]? = some (some 100)
    ∧ (percentileRank [some (7:ℚ)] true)[0]? = some (some 0)
    ∧ (percentileRank [none, some (3:ℚ), none] true)[0]? = some none :=
  ⟨(c4_thm [some 1, some 2] 0 1).1 (by decide) (by decide) (by decide) (by decide),
   (c4_thm [some 1, some 2] 1 2).2.1 (by decide) (by decide) (by decide) (by decide),
   (c4_thm [some 7] 0 7).2.2.1 (by decide) (by decide),
   (c4_thm [none, some 3, none] 0 3).2.2.2 (by decide)⟩

/-! ## Claim C5 -/

/-- C5 (amended): for the series A 5, B 5, C 10, D 20 with ascending
direction, A and B tie at average rank 1.5 and each scores 16.67 (the
average-rank rescale (1.5 - 1) / (4 - 1) * 100 rounded to 2 decimals), not
50; C at rank 3 of 4 scores 66.67; D scores 100. -/
theorem c5_thm :
    percentileRank [some (5:ℚ), some 5, some 10, some 20] true =
      [some (1667/100), some (1667/100), some (6667/100), some 100] := by
  have hv : validList [some (5:ℚ), some 5, some 10, some 20] = [5, 5, 10, 20] := by decide
  simp only [percentileRank, avgRank, hv, List.map, Option.map_some', if_true]
  have hb1 : ([5, 5, 10, 20] : List ℚ).filter (fun u => decide (u < 5)) = [] := by decide
  have hb2 : ([5, 5, 10, 20] : List ℚ).filter (fun u => decide (u < 10)) = [5, 5] := by decide
  have hb3 : ([5, 5, 10, 20] : List ℚ).filter (fun u => decide (u < 20)) = [5, 5, 10] := by decide
  have he1 : ([5, 5, 10, 20] : List ℚ).filter (fun u => decide (u = 5)) = [5, 5] := by decide
  have he2 : ([5, 5, 10, 20] : List ℚ).filter (fun u => decide (u = 10)) = [10] := by decide
  have he3 : ([5, 5, 10, 20] : List ℚ).filter (fun u => decide (u = 20)) = [20] := by decide
  simp only [hb1, hb2, hb3, he1, he2, he3]
  norm_num [round2, roundDec, roundHalfEven, Int.fract]

/-- C5 counterexample: in that series the tied entries A and B score 16.67
each, not the claimed 50.0. -/
theorem c5_counterexample :
    (percentileRank [some (5:ℚ), some 5, some 10, some 20] true)[0]? = some (some (1667/100))
    ∧ ((1667/100 : ℚ) ≠ 50) := by
  constructor
  · have hv : validList [some (5:ℚ), some 5, some 10, some 20] = [5, 5, 10, 20] := by decide
    simp only [percentileRank, avgRank, hv, List.map, Option.map_some', if_true]
    have hb1 : ([5, 5, 10, 20] : List ℚ).filter (fun u => decide (u < 5)) = [] := by decide
    have he1 : ([5, 5, 10, 20] : List ℚ).filter (fun u => decide (u = 5)) = [5, 5] := by decide
    simp only [hb1, he1]
    norm_num [round2, roundDec, roundHalfEven, Int.fract]
  · norm_num

theorem getElem?_zipWith3 {α β γ δ : Type} (f : α → β → γ → δ)
    (l1 : List α) (l2 : List β) (l3 : List γ) (i : ℕ) (a : α) (b : β) (c : γ)
    (h1 : l1[i]? = some a) (h2 : l2[i]? = some b) (h3 : l3[i]? = some c) :
    (List.zipWith3 f l1 l2 l3)[i]? = some (f a b c) := by
  induction l1 generalizing l2 l3 i with
  | nil => simp at h1
  | cons x xs ih =>
    cases l2 with
    | nil => simp at h2
    | cons y ys =>
      cases l3 with
      | nil => simp at h3
      | cons z zs =>
        cases i with
        | zero =>
          simp only [List.getElem?_cons_zero, Option.some.injEq] at h1 h2 h3
          subst h1; subst h2; subst h3
          simp [List.zipWith3]
        | succ n =>
          simp only [List.getElem?_cons_succ] at h1 h2 h3
          simpa [List.zipWith3] using ih ys zs n h1 h2 h3

/-! ## Claim C1 -/

/-- C1 (amended): in the composite scorer, a merged row with a missing PER
receives the neutral valuation score 50; a missing quality sub-metric
contributes the neutral 50 to the quality average (so a row missing all
three receives quality score 50); a missing dividend yield, however, was
already recorded as the raw value 0.0 by the downloader, and the dividend
factor score is the ascending percentile rank of that 0.0: it equals 0
exactly when the row is the only one at yield zero and no yield is negative
(when several rows share yield 0.0 the averaged tie rank gives them a
positive score instead, see the counterexample). -/
theorem c1_thm (mg : List (MomRow × FundRow)) (i : ℕ) (pr : MomRow × FundRow) :
    (mg[i]? = some pr → pr.2.per = none → (scoreValoracionCol mg)[i]? = some 50)
    ∧ (mg[i]? = some pr → pr.2.roaPct = none →
        ((percentileRank (mg.map (fun p => p.2.roaPct)) true).map (fun o => o.getD 50))[i]? =
          some 50)
    ∧ (mg[i]? = some pr → pr.2.roaPct = none → pr.2.roePct = none → pr.2.margenPct = none →
        (scoreCalidadCol mg)[i]? = some 50)
    ∧ (mg[i]? = some pr → pr.2.dyPct = 0 → 2 ≤ mg.length →
        ((mg.map (fun p => p.2.dyPct)).filter (fun u => decide (u = 0))).length = 1 →
        (∀ u ∈ mg.map (fun p => p.2.dyPct), 0 ≤ u) →
        (scoreDividendosCol mg)[i]? = some 0) := by
  have hval : validList (mg.map (fun p => some p.2.dyPct)) = mg.map (fun p => p.2.dyPct) := by
    simp only [validList, List.filterMap_map, Function.comp]
    induction mg with
    | nil => rfl
    | cons a t ih => simp_all
  refine ⟨?_, ?_, ?_, ?_⟩
  · intro hmg hper
    have hcol : (mg.map (fun p => p.2.per))[i]? = some none := by
      rw [List.getElem?_map, hmg, Option.map_some', hper]
    unfold scoreValoracionCol
    rw [List.getElem?_map, percentileRank_keeps_null _ false i hcol]
    rfl
  · intro hmg hroa
    have hcol : (mg.map (fun p => p.2.roaPct))[i]? = some none := by
      rw [List.getElem?_map, hmg, Option.map_some', hroa]
    rw [List.getElem?_map, percentileRank_keeps_null _ true i hcol]
    rfl
  · intro hmg hroa hroe hmar
    have h1 : ((percentileRank (mg.map (fun p => p.2.roaPct)) true).map (fun o => o.getD 50))[i]? =
        some 50 := by
      have hcol : (mg.map (fun p => p.2.roaPct))[i]? = some none := by
        rw [List.getElem?_map, hmg, Option.map_some', hroa]
      rw [List.getElem?_map, percentileRank_keeps_null _ true i hcol]; rfl
    have h2 : ((percentileRank (mg.map (fun p => p.2.roePct)) true).map (fun o => o.getD 50))[i]? =
        some 50 := by
      have hcol : (mg.map (fun p => p.2.roePct))[i]? = some none := by
        rw [List.getElem?_map, hmg, Option.map_some', hroe]
      rw [List.getElem?_map, percentileRank_keeps_null _ true i hcol]; rfl
    have h3 : ((percentileRank (mg.map (fun p => p.2.margenPct)) true).map
        (fun o => o.getD 50))[i]? = some 50 := by
      have hcol : (mg.map (fun p => p.2.margenPct))[i]? = some none := by
        rw [List.getElem?_map, hmg, Option.map_some', hmar]
      rw [List.getElem?_map, percentileRank_keeps_null _ true i hcol]; rfl
    unfold scoreCalidadCol
    rw [getElem?_zipWith3 _ _ _ _ i 50 50 50 h1 h2 h3]
    have h50 : round2 ((50 + 50 + 50 : ℚ) / 3) = 50 := by
      have h150 : ((50:ℚ) + 50 + 50) / 3 = 50 := by norm_num
      rw [h150]
      have := round2_intCast 50
      simpa using this
    rw [h50]
  · intro hmg hdy hn hties hnn
    have hx : (mg.map (fun p => some p.2.dyPct))[i]? = some (some 0) := by
      rw [List.getElem?_map, hmg, Option.map_some', hdy]
    have hn' : 2 ≤ (validList (mg.map (fun p => some p.2.dyPct))).length := by
      rw [hval, List.length_map]; exact hn
    have hties' : ((validList (mg.map (fun p => some p.2.dyPct))).filter
        (fun u => decide (u = 0))).length = 1 := by
      rw [hval]; exact hties
    have hmin : ∀ u ∈ validList (mg.map (fun p => some p.2.dyPct)), (0:ℚ) ≤ u := by
      rw [hval]; exact hnn
    unfold scoreDividendosCol
    rw [List.getElem?_map, percentileRank_unique_min _ i 0 hx hn' hties' hmin]
    rfl

/-- C1 counterexample: assets A and B both miss a usable dividend yield
(dividendYield none, recorded as raw 0.0), C yields 2 percent.  The claim
says A and B receive dividend factor score exactly 0; the code gives both
the averaged tie rank score 25. -/
theorem c1_counterexample :
    (mkFundRow "A" ⟨some 10, none, none, none, none⟩).dyPct = 0
    ∧ scoreDividendosCol
        (mergeInner
          [⟨"A", 10, 20, 15⟩, ⟨"B", 5, 5, 5⟩, ⟨"C", 1, 1, 1⟩]
          [mkFundRow "A" ⟨some 10, none, none, none, none⟩,
           mkFundRow "B" ⟨some 12, none, none, none, none⟩,
           mkFundRow "C" ⟨some 8, none, none, none, some (1/50)⟩]) = [25, 25, 100]
    ∧ ((25:ℚ) ≠ 0) := by
  have h2' : round2 (2:ℚ) = 2 := by
    have := round2_intCast 2
    simpa using this
  have hA : mkFundRow "A" ⟨some 10, none, none, none, none⟩ =
      ⟨"A", some 10, none, none, none, 0⟩ := by
    simp [mkFundRow]
    norm_num
  have hB : mkFundRow "B" ⟨some 12, none, none, none, none⟩ =
      ⟨"B", some 12, none, none, none, 0⟩ := by
    simp [mkFundRow]
    norm_num
  have hC : mkFundRow "C" ⟨some 8, none, none, none, some (1/50)⟩ =
      ⟨"C", some 8, none, none, none, 2⟩ := by
    simp [mkFundRow]
    constructor
    · norm_num
    · rw [show ((50:ℚ)⁻¹ * 100) = 2 by norm_num, h2']
  refine ⟨by rw [hA], ?_, by norm_num⟩
  rw [hA, hB, hC]
  have hmerge : mergeInner
      [⟨"A", 10, 20, 15⟩, ⟨"B", 5, 5, 5⟩, ⟨"C", 1, 1, 1⟩]
      [⟨"A", some 10, none, none, none, 0⟩,
       ⟨"B", some 12, none, none, none, 0⟩,
       ⟨"C", some 8, none, none, none, 2⟩] =
      [(⟨"A", 10, 20, 15⟩, ⟨"A", some 10, none, none, none, 0⟩),
       (⟨"B", 5, 5, 5⟩, ⟨"B", some 12, none, none, none, 0⟩),
       (⟨"C", 1, 1, 1⟩, ⟨"C", some 8, none, none, none, 2⟩)] := by decide
  rw [hmerge]
  unfold scoreDividendosCol
  have hcol : (([(⟨"A", 10, 20, 15⟩, ⟨"A", some 10, none, none, none, 0⟩),
       (⟨"B", 5, 5, 5⟩, ⟨"B", some 12, none, none, none, 0⟩),
       (⟨"C", 1, 1, 1⟩, ⟨"C", some 8, none, none, none, 2⟩)] :
        List (MomRow × FundRow)).map (fun p => some p.2.dyPct)) =
      [some 0, some 0, some 2] := by decide
  rw [hcol]
  have hv : validList [some (0:ℚ), some 0, some 2] = [0, 0, 2] := by decide
  have hall : percentileRank [some (0:ℚ), some 0, some 2] true = [some 25, some 25, some 100] := by
    simp only [percentileRank, avgRank, hv, List.map, Option.map_some', if_true]
    have hb1 : ([0, 0, 2] : List ℚ).filter (fun u => decide (u < 0)) = [] := by decide
    have hb2 : ([0, 0, 2] : List ℚ).filter (fun u => decide (u < 2)) = [0, 0] := by decide
    have he1 : ([0, 0, 2] : List ℚ).filter (fun u => decide (u = 0)) = [0, 0] := by decide
    have he2 : ([0, 0, 2] : List ℚ).filter (fun u => decide (u = 2)) = [2] := by decide
    simp only [hb1, hb2, he1, he2]
    norm_num [round2, roundDec, roundHalfEven, Int.fract]
  rw [hall]
  rfl

/-- C1 witness: the amended statement evaluated on a two-row merged frame
whose first row misses PER and all quality sub-metrics and is the only row
at dividend yield zero. -/
theorem c1_witness :
    (scoreValoracionCol
        [(⟨"A", 1, 1, 1⟩, ⟨"A", none, none, none, none, 0⟩),
         (⟨"B", 2, 2, 2⟩, ⟨"B", some 10, some 1, some 2, some 3, 3⟩)])[0]? = some 50
    ∧ ((percentileRank
          (([(⟨"A", 1, 1, 1⟩, ⟨"A", none, none, none, none, 0⟩),
             (⟨"B", 2, 2, 2⟩, ⟨"B", some 10, some 1, some 2, some 3, 3⟩)] :
              List (MomRow × FundRow)).map (fun p => p.2.roaPct)) true).map
        (fun o => o.getD 50))[0]? = some 50
    ∧ (scoreCalidadCol
        [(⟨"A", 1, 1, 1⟩, ⟨"A", none, none, none, none, 0⟩),
         (⟨"B", 2, 2, 2⟩, ⟨"B", some 10, some 1, some 2, some 3, 3⟩)])[0]? = some 50
    ∧ (scoreDividendosCol
        [(⟨"A", 1, 1, 1⟩, ⟨"A", none, none, none, none, 0⟩),
         (⟨"B", 2, 2, 2⟩, ⟨"B", some 10, some 1, some 2, some 3, 3⟩)])[0]? = some 0 :=
  ⟨(c1_thm _ 0 (⟨"A", 1, 1, 1⟩, ⟨"A", none, none, none, none, 0⟩)).1
      (by decide) (by decide),
   (c1_thm _ 0 (⟨"A", 1, 1, 1⟩, ⟨"A", none, none, none, none, 0⟩)).2.1
      (by decide) (by decide),
   (c1_thm _ 0 (⟨"A", 1, 1, 1⟩, ⟨"A", none, none, none, none, 0⟩)).2.2.1
      (by decide) (by decide) (by decide) (by decide),
   (c1_thm _ 0 (⟨"A", 1, 1, 1⟩, ⟨"A", none, none, none, none, 0⟩)).2.2.2
      (by decide) (by decide) (by decide) (by decide) (by decide)⟩

/-! ## Claim C2 -/

/-- C2 (amended): when either downloaded frame is empty, calcular returns an
empty frame as its ordinary value: no partial rows are emitted and no
exception is raised (the codebase defines no InsufficientUniverseError and
contains no raise). -/
theorem c2_thm (dfMom : List MomRow) (dfFund : List FundRow)
    (h : dfMom = [] ∨ dfFund = []) : calcular dfMom dfFund = .ok [] := by
  rcases h with h | h <;> subst h <;> simp [calcular]

/-- C2 counterexample: with an empty momentum frame and a nonempty
fundamentals frame, calcular evaluates to the ordinary value ok with an
empty row list; it does not fail with any error. -/
theorem c2_counterexample :
    calcular [] [mkFundRow "AAPL" ⟨some 10, some (1/10), some (1/5), some (3/20), some (1/100)⟩] =
      Except.ok [] := by
  simp [calcular]

/-- C2 witness: the amended statement at a concrete input with an empty
fundamentals frame. -/
theorem c2_witness :
    calcular [⟨"AAPL", 1, 2, 3⟩] [] = Except.ok [] :=
  c2_thm [⟨"AAPL", 1, 2, 3⟩] [] (Or.inr rfl)

/-! ## Claim C3 -/

theorem portStats_sharpe_of_vol2_eq_zero (cols : List (List ℚ)) (w : List ℚ)
    (h : (portStats cols w).vol2 = 0) : (portStats cols w).sharpe = .finite 0 1 := by
  simp only [portStats] at h ⊢
  rw [if_neg]
  rw [h]
  norm_num

theorem portStats_sharpe_of_vol2_pos (cols : List (List ℚ)) (w : List ℚ)
    (h : 0 < (portStats cols w).vol2) :
    ∃ num, (portStats cols w).sharpe = .finite num ((portStats cols w).vol2)
      ∧ (portStats cols w).retornoAnual = round2 (num * 100) := by
  simp only [portStats] at h ⊢
  exact ⟨_, by rw [if_pos h], rfl⟩

/-- C3 (amended): the Sharpe ratio is annualized return over annualized
volatility in both places (represented as the pair num, vol2 with the
volatility squared).  analizar_portafolio guards the zero-volatility case
and reports the plain value 0 (finite 0 1).  metricas_individuales has no
guard: when the annualized volatility is 0 the float quotient is plus or
minus infinity for a nonzero numerator and NaN for a zero one — the
reported Sharpe is never 0 there, though no exception is raised. -/
theorem c3_thm (rets : List ℚ) (pesos : List (String × ℚ))
    (retornos : List (String × List ℚ)) :
    (0 < annualVol2 rets → sharpeIndividual rets = .finite (annualRet rets) (annualVol2 rets))
    ∧ (annualVol2 rets = 0 → 0 < annualRet rets → sharpeIndividual rets = .posInf)
    ∧ (annualVol2 rets = 0 → annualRet rets < 0 → sharpeIndividual rets = .negInf)
    ∧ (annualVol2 rets = 0 → annualRet rets = 0 → sharpeIndividual rets = .nan)
    ∧ ((analizarPortafolio pesos retornos).vol2 = 0 →
        (analizarPortafolio pesos retornos).sharpe = .finite 0 1)
    ∧ (0 < (analizarPortafolio pesos retornos).vol2 →
        ∃ num, (analizarPortafolio pesos retornos).sharpe =
            .finite num ((analizarPortafolio pesos retornos).vol2)
          ∧ (analizarPortafolio pesos retornos).retornoAnual = round2 (num * 100)) := by
  refine ⟨?_, ?_, ?_, ?_, ?_, ?_⟩
  · intro h
    simp [sharpeIndividual, h]
  · intro h hr
    simp [sharpeIndividual, h, hr]
  · intro h hr
    have : ¬ (0 < annualRet rets) := by linarith
    simp [sharpeIndividual, h, hr, this]
  · intro h hr
    simp [sharpeIndividual, h, hr]
  · intro h
    exact portStats_sharpe_of_vol2_eq_zero _ _ h
  · intro h
    exact portStats_sharpe_of_vol2_pos _ _ h

/-- C3 counterexample: the two-day return series 1 percent, 1 percent has
annualized volatility 0, and metricas_individuales reports plus infinity for
its Sharpe, not the claimed 0. -/
theorem c3_counterexample :
    annualVol2 [1/100, 1/100] = 0
    ∧ sharpeIndividual [1/100, 1/100] = SharpeVal.posInf := by
  have hv : annualVol2 [1/100, 1/100] = 0 := by
    norm_num [annualVol2, sampleVar, listMean]
  have hr : annualRet [1/100, 1/100] = 252/100 := by
    norm_num [annualRet, listMean]
  refine ⟨hv, ?_⟩
  rw [sharpeIndividual, if_neg (by rw [hv]; norm_num), if_pos (by rw [hr]; norm_num)]

/-- C3 witness: the finite quotient on a series with spread, the unguarded
infinity on a constant positive series, and the guarded portfolio 0 on a
zero-volatility portfolio. -/
theorem c3_witness :
    sharpeIndividual [1/100, 3/100] =
      SharpeVal.finite (annualRet [1/100, 3/100]) (annualVol2 [1/100, 3/100])
    ∧ sharpeIndividual [2/100, 2/100] = SharpeVal.posInf
    ∧ (analizarPortafolio [("A", 1), ("B", 1)] [("A", [0, 0]), ("B", [0, 0])]).sharpe =
        SharpeVal.finite 0 1 := by
  refine ⟨(c3_thm [1/100, 3/100] [] []).1 ?_,
          (c3_thm [2/100, 2/100] [] []).2.1 ?_ ?_,
          (c3_thm [] [("A", 1), ("B", 1)] [("A", [0, 0]), ("B", [0, 0])]).2.2.2.2.1 ?_⟩
  · norm_num [annualVol2, sampleVar, listMean]
  · norm_num [annualVol2, sampleVar, listMean]
  · norm_num [annualRet, listMean]
  · norm_num [analizarPortafolio, portStats, pesosValidos, sampleCov, listMean, dotList,
      List.find?, show (("A":String) == "A") = true from by decide,
      show (("A":String) == "B") = false from by decide,
      show (("B":String) == "B") = true from by decide]

/-! ## Claim C7 -/

theorem sum_map_mul_const (l : List ℚ) (c : ℚ) :
    (l.map (fun x => c * x)).sum = c * l.sum := by
  induction l with
  | nil => simp
  | cons a t ih => simp [ih]; ring

theorem scaled_normalized_weights (l : List ℚ) (c : ℚ) (hc : c ≠ 0) :
    (l.map (fun x => c * x)).map (fun x => x / (l.map (fun x => c * x)).sum) =
      l.map (fun x => x / l.sum) := by
  rw [sum_map_mul_const, List.map_map]
  apply List.map_congr_left
  intro a _
  simp only [Function.comp]
  exact mul_div_mul_left a l.sum hc

/-- C7: scaling every weight by a positive constant leaves every field of
the analizar_portafolio result unchanged: the weights are renormalized to
sum 1 before any use, and (c w) / (c w).sum = w / w.sum. -/
theorem c7_thm (pesos : List (String × ℚ)) (retornos : List (String × List ℚ))
    (c : ℚ) (hc : 0 < c) :
    analizarPortafolio (pesos.map (fun p => (p.1, c * p.2))) retornos =
      analizarPortafolio pesos retornos := by
  have hvalidos : pesosValidos (pesos.map (fun p => (p.1, c * p.2))) retornos =
      (pesosValidos pesos retornos).map (fun p => (p.1, c * p.2)) := by
    unfold pesosValidos
    rw [List.filter_map]
    rfl
  have hcols : ((pesosValidos pesos retornos).map (fun p => (p.1, c * p.2))).map
      (fun p => (((retornos.find? (fun col => col.1 == p.1)).map (fun col => col.2)).getD [])) =
      (pesosValidos pesos retornos).map
      (fun p => (((retornos.find? (fun col => col.1 == p.1)).map (fun col => col.2)).getD [])) := by
    rw [List.map_map]
    rfl
  have hw : ((pesosValidos pesos retornos).map (fun p => (p.1, c * p.2))).map
      (fun p : String × ℚ => p.2) =
      ((pesosValidos pesos retornos).map (fun p => p.2)).map (fun x => c * x) := by
    simp [List.map_map, Function.comp]
  simp only [analizarPortafolio]
  rw [hvalidos, hcols, hw, scaled_normalized_weights _ c (ne_of_gt hc)]

/-- C7 witness: weights A 10, B 30 (ten times A 1, B 3) give the identical
portfolio metrics on a concrete two-asset, two-day return frame. -/
theorem c7_witness :
    analizarPortafolio ([("A", 1), ("B", 3)].map (fun p => (p.1, (10:ℚ) * p.2)))
        [("A", [1/100, 2/100]), ("B", [2/100, 1/100])] =
      analizarPortafolio [("A", 1), ("B", 3)]
        [("A", [1/100, 2/100]), ("B", [2/100, 1/100])] :=
  c7_thm [("A", 1), ("B", 3)] [("A", [1/100, 2/100]), ("B", [2/100, 1/100])] 10
    (by norm_num)

/-! ## Claim C6 -/

/-- C6: for every raw frame, window size and metric value series, a pair
(t, v) appears in the aggregated output exactly when asset t has at least
one non-null observation at quarter index below the window size, and then v
is the mean of exactly those observations; an asset with no usable
observation in the window is absent from the output (second conjunct). -/
theorem c6_thm (dfRaw : List ObsRow) (n : ℕ) (t : String) (v : ℚ) :
    ((t, v) ∈ agregarPorPeriodo dfRaw n ↔
      windowVals dfRaw n t ≠ [] ∧
        v = (windowVals dfRaw n t).sum / ((windowVals dfRaw n t).length : ℚ))
    ∧ (windowVals dfRaw n t = [] → ∀ w : ℚ, (t, w) ∉ agregarPorPeriodo dfRaw n) := by
  have hfwd : ∀ w : ℚ, (t, w) ∈ agregarPorPeriodo dfRaw n →
      windowVals dfRaw n t ≠ [] ∧
        w = (windowVals dfRaw n t).sum / ((windowVals dfRaw n t).length : ℚ) := by
    intro w hmem
    obtain ⟨t', _, heq⟩ := List.mem_filterMap.mp hmem
    obtain ⟨v', hv', hpair⟩ := Option.map_eq_some'.mp heq
    have ht : t' = t := congrArg Prod.fst hpair
    have hv : v' = w := congrArg Prod.snd hpair
    rw [ht, hv] at hv'
    unfold aggValue at hv'
    by_cases hemp : (windowVals dfRaw n t).isEmpty
    · rw [if_pos hemp] at hv'
      exact absurd hv' (by simp)
    · rw [if_neg hemp] at hv'
      refine ⟨by simpa using hemp, ?_⟩
      exact (Option.some.injEq .. ▸ hv').symm
  constructor
  · constructor
    · exact hfwd v
    · rintro ⟨hne, hv⟩
      apply List.mem_filterMap.mpr
      refine ⟨t, ?_, ?_⟩
      · apply List.mem_dedup.mpr
        obtain ⟨r, hr, hsome⟩ : ∃ r ∈ dfRaw,
            (if r.ticker = t ∧ r.trimestreIdx < n then r.valor else none) ≠ none := by
          by_contra hall
          push_neg at hall
          apply hne
          unfold windowVals
          exact List.filterMap_eq_nil_iff.mpr hall
        have hcond : r.ticker = t ∧ r.trimestreIdx < n := by
          by_contra hc
          rw [if_neg hc] at hsome
          exact hsome rfl
        exact List.mem_map.mpr ⟨r, hr, hcond.1⟩
      · unfold aggValue
        rw [if_neg (by simpa using hne), hv]
        rfl
  · intro hemp w hw
    exact absurd hemp (hfwd w hw).1

/-- C6 witness: scenario C of the spec.  Values 10 at index 0, null at
index 1, 30 at index 2, window 2: the aggregate is exactly 10 (the null is
skipped, index 2 is out of window). -/
theorem c6_witness :
    ("X", (10:ℚ)) ∈ agregarPorPeriodo
      [⟨"X", 0, some 10⟩, ⟨"X", 1, none⟩, ⟨"X", 2, some 30⟩] 2 :=
  (c6_thm [⟨"X", 0, some 10⟩, ⟨"X", 1, none⟩, ⟨"X", 2, some 30⟩] 2 "X" 10).1.mpr
    ⟨by decide, by
      have hw : windowVals [⟨"X", 0, some 10⟩, ⟨"X", 1, none⟩, ⟨"X", 2, some 30⟩] 2 "X" =
          [10] := by decide
      rw [hw]
      norm_num⟩

/-! ## Claim C9 -/

/-- C9 (amended): the FundamentalsScanner constructor starts with an empty
cache and _asegurar_datos downloads only into a None or empty cache: a
scan that finds a nonempty cached frame keeps it, so the second of two
scans reuses the frame materialized by the first (last conjunct) instead of
refetching. -/
theorem c9_thm (st : Option (List ObsRow)) (descarga d : List ObsRow) :
    (st = none → asegurarDatos st descarga = some descarga)
    ∧ (st = some d → d ≠ [] → asegurarDatos st descarga = some d)
    ∧ (st = some [] → asegurarDatos st descarga = some descarga)
    ∧ (∀ f1 f2 : List ObsRow, f1 ≠ [] →
        asegurarDatos (asegurarDatos none f1) f2 = some f1) := by
  refine ⟨?_, ?_, ?_, ?_⟩
  · intro h; subst h; rfl
  · intro h hd; subst h; simp [asegurarDatos, hd]
  · intro h; subst h; rfl
  · intro f1 f2 h1; simp [asegurarDatos, h1]

/-- C9 counterexample: after a first scan materialized the AAPL frame, a
second scan on the same scanner with fresh provider data (the MSFT frame)
keeps the AAPL frame and its aggregation output is still computed from it:
state is reused across calls. -/
theorem c9_counterexample :
    asegurarDatos (asegurarDatos none [⟨"AAPL", 0, some 10⟩]) [⟨"MSFT", 0, some 5⟩] =
      some [⟨"AAPL", 0, some 10⟩]
    ∧ agregarPorPeriodo
        ((asegurarDatos (asegurarDatos none [⟨"AAPL", 0, some 10⟩])
            [⟨"MSFT", 0, some 5⟩]).getD []) 1 = [("AAPL", 10)]
    ∧ ([("AAPL", (10:ℚ))] ≠ [("MSFT", (5:ℚ))]) := by
  have hst : asegurarDatos (asegurarDatos none [⟨"AAPL", 0, some 10⟩]) [⟨"MSFT", 0, some 5⟩] =
      some [⟨"AAPL", 0, some 10⟩] := by decide
  refine ⟨hst, ?_, by decide⟩
  rw [hst]
  have hd : (([⟨"AAPL", 0, some 10⟩] : List ObsRow).map (fun r => r.ticker)).dedup =
      ["AAPL"] := by decide
  have hw : windowVals [⟨"AAPL", 0, some 10⟩] 1 "AAPL" = [10] := by decide
  simp only [Option.getD_some, agregarPorPeriodo, hd, aggValue, hw, List.filterMap]
  norm_num

/-- C9 witness: the cache contract evaluated at concrete states: first call
fills the empty cache, a nonempty cache survives a second call unchanged,
an empty cached frame is refetched, and the two-call composition keeps the
first download. -/
theorem c9_witness :
    asegurarDatos none [⟨"AAPL", 0, some 10⟩] = some [⟨"AAPL", 0, some 10⟩]
    ∧ asegurarDatos (some [⟨"AAPL", 0, some 10⟩]) [⟨"MSFT", 0, some 5⟩] =
        some [⟨"AAPL", 0, some 10⟩]
    ∧ asegurarDatos (some []) [⟨"MSFT", 0, some 5⟩] = some [⟨"MSFT", 0, some 5⟩]
    ∧ asegurarDatos (asegurarDatos none [⟨"AAPL", 0, some 10⟩]) [⟨"MSFT", 0, some 5⟩] =
        some [⟨"AAPL", 0, some 10⟩] :=
  ⟨(c9_thm none [⟨"AAPL", 0, some 10⟩] []).1 rfl,
   (c9_thm (some [⟨"AAPL", 0, some 10⟩]) [⟨"MSFT", 0, some 5⟩]
      [⟨"AAPL", 0, some 10⟩]).2.1 rfl (by decide),
   (c9_thm (some []) [⟨"MSFT", 0, some 5⟩] []).2.2.1 rfl,
   (c9_thm none [] []).2.2.2 [⟨"AAPL", 0, some 10⟩] [⟨"MSFT", 0, some 5⟩] (by decide)⟩

/-! ## Claim C8 -/

theorem roundHalfEven_cases (q : ℚ) :
    roundHalfEven q = ⌊q⌋ ∨ roundHalfEven q = ⌊q⌋ + 1 := by
  simp only [roundHalfEven]
  split_ifs <;> simp

theorem roundHalfEven_mono {a b : ℚ} (h : a ≤ b) : roundHalfEven a ≤ roundHalfEven b := by
  have hf : ⌊a⌋ ≤ ⌊b⌋ := Int.floor_mono h
  rcases lt_or_eq_of_le hf with hlt | heq
  · rcases roundHalfEven_cases a with ha | ha <;> rcases roundHalfEven_cases b with hb | hb <;>
      rw [ha, hb] <;> omega
  · have hra : (0:ℚ) ≤ a - ⌊a⌋ := by
      have := Int.floor_le a
      linarith
    have hfr : a - ⌊a⌋ ≤ b - ⌊b⌋ := by
      rw [← heq]
      linarith
    simp only [roundHalfEven]
    rw [← heq]
    split_ifs with h1 h2 h3 h4 h5 h6 h7 h8 <;> try omega
    all_goals linarith

theorem round2_mono {a b : ℚ} (h : a ≤ b) : round2 a ≤ round2 b := by
  unfold round2 roundDec
  have h1 : a * 10 ^ 2 ≤ b * 10 ^ 2 := by nlinarith
  have h2 : (roundHalfEven (a * 10 ^ 2) : ℚ) ≤ (roundHalfEven (b * 10 ^ 2) : ℚ) := by
    exact_mod_cast roundHalfEven_mono h1
  have hpos : (0:ℚ) < 10 ^ 2 := by norm_num
  exact (div_le_div_iff_of_pos_right hpos).mpr h2

/-- C8: both rankers return an empty ranking on an empty series (no
exception exists in the embedding, which is total); the output length is
min n (series length), so fewer than n valid entries are returned whole
with no padding (the permutation conjunct); the n-ranking is the n-prefix
of the full ranking (truncation happens after sorting); and the loser
output ascends while the gainer output descends. -/
theorem c8_thm (v : List (String × ℚ)) (n : ℕ) :
    (topLosers [] n = [] ∧ topGainers [] n = [])
    ∧ ((topLosers v n).length = min n v.length ∧ (topGainers v n).length = min n v.length)
    ∧ (topLosers v n = (topLosers v v.length).take n
        ∧ topGainers v n = (topGainers v v.length).take n)
    ∧ (v.length ≤ n →
        (topLosers v n).Perm (v.map (fun p => (p.1, round2 p.2)))
        ∧ (topGainers v n).Perm (v.map (fun p => (p.1, round2 p.2))))
    ∧ (List.Pairwise (fun x y : String × ℚ => x.2 ≤ y.2) (topLosers v n)
        ∧ List.Pairwise (fun x y : String × ℚ => y.2 ≤ x.2) (topGainers v n)) := by
  by_cases hv : v.isEmpty
  · have hv' : v = [] := by simpa [List.isEmpty_iff] using hv
    subst hv'
    refine ⟨⟨rfl, rfl⟩, ⟨by simp [topLosers], by simp [topGainers]⟩,
      ⟨by simp [topLosers], by simp [topGainers]⟩,
      fun _ => ⟨by simp [topLosers], by simp [topGainers]⟩,
      ⟨by simp [topLosers], by simp [topGainers]⟩⟩
  · have hL : topLosers v n =
        ((List.insertionSort (fun a b => a.2 ≤ b.2) v).take n).map
          (fun p => (p.1, round2 p.2)) := by
      unfold topLosers
      rw [if_neg (by simp [hv])]
    have hG : topGainers v n =
        ((List.insertionSort (fun a b => b.2 ≤ a.2) v).take n).map
          (fun p => (p.1, round2 p.2)) := by
      unfold topGainers
      rw [if_neg (by simp [hv])]
    have hlenL : (List.insertionSort (fun a b : String × ℚ => a.2 ≤ b.2) v).length = v.length :=
      List.length_insertionSort _ v
    have hlenG : (List.insertionSort (fun a b : String × ℚ => b.2 ≤ a.2) v).length = v.length :=
      List.length_insertionSort _ v
    refine ⟨⟨by simp [topLosers], by simp [topGainers]⟩, ?_, ?_, ?_, ?_⟩
    · constructor
      · rw [hL, List.length_map, List.length_take, hlenL]
      · rw [hG, List.length_map, List.length_take, hlenG]
    · constructor
      · rw [hL, topLosers, if_neg (by simp [hv]),
          List.take_of_length_le (le_of_eq hlenL)]
        first
        | rfl
        | exact List.map_take _ _ _
      · rw [hG, topGainers, if_neg (by simp [hv]),
          List.take_of_length_le (le_of_eq hlenG)]
        first
        | rfl
        | exact List.map_take _ _ _
    · intro hn
      constructor
      · rw [hL, List.take_of_length_le (by omega)]
        exact (List.perm_insertionSort _ v).map _
      · rw [hG, List.take_of_length_le (by omega)]
        exact (List.perm_insertionSort _ v).map _
    · constructor
      · rw [hL]
        apply List.Pairwise.map (R := fun x y : String × ℚ => x.2 ≤ y.2)
        · intro a b hab
          exact round2_mono hab
        · apply List.Pairwise.sublist (List.take_sublist n _)
          haveI : IsTotal (String × ℚ) (fun a b => a.2 ≤ b.2) := ⟨fun a b => le_total a.2 b.2⟩
          haveI : IsTrans (String × ℚ) (fun a b => a.2 ≤ b.2) :=
            ⟨fun _ _ _ hab hbc => le_trans hab hbc⟩
          exact List.sorted_insertionSort _ v
      · rw [hG]
        apply List.Pairwise.map (R := fun x y : String × ℚ => y.2 ≤ x.2)
        · intro a b hab
          exact round2_mono hab
        · apply List.Pairwise.sublist (List.take_sublist n _)
          haveI : IsTotal (String × ℚ) (fun a b => b.2 ≤ a.2) := ⟨fun a b => le_total b.2 a.2⟩
          haveI : IsTrans (String × ℚ) (fun a b => b.2 ≤ a.2) :=
            ⟨fun _ _ _ hab hbc => le_trans hbc hab⟩
          exact List.sorted_insertionSort _ v

/-- C8 witness: a two-entry series ranked with n = 10 returns both entries,
for losers and gainers alike. -/
theorem c8_witness :
    ((topLosers [("A", 3), ("B", 1)] 10).Perm
      ([("A", 3), ("B", 1)].map (fun p : String × ℚ => (p.1, round2 p.2))))
    ∧ ((topGainers [("A", 3), ("B", 1)] 10).Perm
      ([("A", 3), ("B", 1)].map (fun p : String × ℚ => (p.1, round2 p.2)))) :=
  (c8_thm [("A", 3), ("B", 1)] 10).2.2.2.1 (by decide)

/-! ## Claim C10 -/

/-- C10: on a nonempty frame in which no row carries a value in the
requested P/E column, escanear silently switches to the other column:
col_pe names that other column, todos is a permutation of the rows valid in
it, bajo is the 10-prefix of todos, and every row of alto and todos has a
value in the fallback column. -/
theorem c10_thm (df : List PerRow) (tipoPe : String)
    (hne : df ≠ [])
    (hnone : ∀ r ∈ df, getPECol r (reqPECol tipoPe) = none) :
    (escanearPER df tipoPe).colPe = otherPECol (reqPECol tipoPe)
    ∧ (escanearPER df tipoPe).todos.Perm
        (df.filter (fun r => (getPECol r (otherPECol (reqPECol tipoPe))).isSome))
    ∧ (escanearPER df tipoPe).bajo = (escanearPER df tipoPe).todos.take topNPER
    ∧ (∀ r ∈ (escanearPER df tipoPe).alto, (getPECol r (otherPECol (reqPECol tipoPe))).isSome)
    ∧ (∀ r ∈ (escanearPER df tipoPe).todos,
        (getPECol r (otherPECol (reqPECol tipoPe))).isSome) := by
  have hdf : ¬ (df.isEmpty = true) := by simpa [List.isEmpty_iff] using hne
  have hv0 : df.filter (fun r => (getPECol r (reqPECol tipoPe)).isSome) = [] := by
    rw [List.filter_eq_nil_iff]
    intro r hr
    simp [hnone r hr]
  have hres : escanearPER df tipoPe =
      ⟨(List.insertionSort (fun a b =>
          (getPECol a (otherPECol (reqPECol tipoPe))).getD 0 ≤
            (getPECol b (otherPECol (reqPECol tipoPe))).getD 0)
          (df.filter (fun r => (getPECol r (otherPECol (reqPECol tipoPe))).isSome))).take topNPER,
        (List.insertionSort (fun a b =>
          (getPECol b (otherPECol (reqPECol tipoPe))).getD 0 ≤
            (getPECol a (otherPECol (reqPECol tipoPe))).getD 0)
          (df.filter (fun r => (getPECol r (otherPECol (reqPECol tipoPe))).isSome))).take topNPER,
        List.insertionSort (fun a b =>
          (getPECol a (otherPECol (reqPECol tipoPe))).getD 0 ≤
            (getPECol b (otherPECol (reqPECol tipoPe))).getD 0)
          (df.filter (fun r => (getPECol r (otherPECol (reqPECol tipoPe))).isSome)),
        otherPECol (reqPECol tipoPe)⟩ := by
    unfold escanearPER
    rw [if_neg hdf]
    simp only [hv0, List.isEmpty_nil, if_pos]
  rw [hres]
  refine ⟨rfl, ?_, rfl, ?_, ?_⟩
  · exact List.perm_insertionSort _ _
  · intro r hr
    have hr2 : r ∈ df.filter (fun r => (getPECol r (otherPECol (reqPECol tipoPe))).isSome) :=
      (List.perm_insertionSort _ _).mem_iff.mp (List.mem_of_mem_take hr)
    exact (List.mem_filter.mp hr2).2
  · intro r hr
    have hr2 : r ∈ df.filter (fun r => (getPECol r (otherPECol (reqPECol tipoPe))).isSome) :=
      (List.perm_insertionSort _ _).mem_iff.mp hr
    exact (List.mem_filter.mp hr2).2

/-- C10 witness: tipo_pe forward on a frame whose Forward P/E column is all
null falls back to Trailing P/E, and col_pe reports the trailing column. -/
theorem c10_witness :
    (escanearPER
        [⟨"X", "X Corp", "Tech", some 10, some 30, none⟩,
         ⟨"Y", "Y Corp", "Tech", some 5, some 20, none⟩] "forward").colPe =
      otherPECol (reqPECol "forward")
    ∧ (escanearPER
        [⟨"X", "X Corp", "Tech", some 10, some 30, none⟩,
         ⟨"Y", "Y Corp", "Tech", some 5, some 20, none⟩] "forward").todos.Perm
        ([⟨"X", "X Corp", "Tech", some 10, some 30, none⟩,
          ⟨"Y", "Y Corp", "Tech", some 5, some 20, none⟩].filter
          (fun r => (getPECol r (otherPECol (reqPECol "forward"))).isSome)) := by
  have h := c10_thm
    [⟨"X", "X Corp", "Tech", some 10, some 30, none⟩,
     ⟨"Y", "Y Corp", "Tech", some 5, some 20, none⟩] "forward"
    (by decide) (by decide)
  exact ⟨h.1, h.2.1⟩
